import Mathlib

/-!
Shallow embedding of the data-access layer of the trade-data-dashboard
repository (src/database_manager.py, src/data_extractor.py) and proofs of
the specification's claims about it.

Conventions of the embedding:
  * SQLite REAL columns are modelled as `Rat` (the claims under study concern
    null-handling, ordering and exact sums, none of which depend on binary
    floating-point rounding).
  * Nullable columns are `Option`-valued.
  * Python `datetime` instants are integer seconds on a global clock.
  * Python truthiness tests (`if x:`) are modelled explicitly by `pyTruthy`.
-/

namespace TradeDash

/-! ### Python scalar values and truthiness

`extract_trade_data_free_api` applies `float(...)` to fields of the JSON
response guarded by a truthiness test, so we model the relevant Python value
universe: `None`, numbers, and strings.  `float` raises `TypeError` on `None`
and `ValueError` on a non-numeric string; both are modelled by `pyFloat`
returning `none`.
-/

inductive PyVal where
  | pNone : PyVal
  | pNum : Rat → PyVal
  | pStr : String → PyVal
deriving DecidableEq, Repr

/-- Python truthiness: `None` and `0` and `""` are falsy. -/
def pyTruthy : PyVal → Bool
  | .pNone => false
  | .pNum q => q != 0
  | .pStr s => s != ""

def digitVal (c : Char) : Nat := c.toNat - '0'.toNat

def natOfDigits (cs : List Char) : Nat :=
  cs.foldl (fun a c => a * 10 + digitVal c) 0

/-- Decimal-string parser standing in for Python `float()` on strings:
accepts an optional sign followed by digits with an optional fractional part
(at least one digit overall); returns `none` where `float()` raises
`ValueError` (non-numeric text such as `"abc"`). -/
def parseDecimal (s : String) : Option Rat :=
  let step : List Char → Option Rat := fun cs =>
    match cs.splitOn '.' with
    | [a] =>
        if a ≠ [] ∧ a.all Char.isDigit then some (natOfDigits a) else none
    | [a, b] =>
        if (a ++ b) ≠ [] ∧ (a ++ b).all Char.isDigit then
          some ((natOfDigits a : Rat) + (natOfDigits b : Rat) / ((10 : Rat) ^ b.length))
        else none
    | _ => none
  match s.data with
  | '-' :: rest => (step rest).map (fun q => -q)
  | '+' :: rest => step rest
  | cs => step cs

/-- Python `float(v)`: `none` models the raised `TypeError`/`ValueError`. -/
def pyFloat : PyVal → Option Rat
  | .pNone => none
  | .pNum q => some q
  | .pStr s => parseDecimal s

/-! ### Rate limiter (`ComtradeDataExtractor.check_rate_limit`)

The Python code filters `self.requests_made` keeping entries with
`(now - req_time).seconds < 3600`.  For a `timedelta`, `.seconds` is the
normalised seconds-of-day component, i.e. the total elapsed seconds reduced
modulo 86400 (Python normalises so that `0 <= seconds < 86400` even for
negative deltas) — it is not `.total_seconds()`.  We embed exactly that.
If the retained count reaches the ceiling the code sleeps 3600 seconds and
clears the list.
-/

/-- Python `timedelta.seconds` of an elapsed time of `d` seconds: `d` reduced into
`[0, 86400)` (Python's normalised seconds component; `Int.emod` agrees). -/
def timedeltaSeconds (d : Int) : Int := d % 86400

/-- Embeds `check_rate_limit`: given the clock `now`, the recorded request
timestamps and the hourly ceiling, returns the updated `requests_made` list
and the number of seconds slept. -/
def checkRateLimit (now : Int) (requestsMade : List Int) (maxPerHour : Nat) :
    List Int × Nat :=
  let remaining := requestsMade.filter (fun t => timedeltaSeconds (now - t) < 3600)
  if maxPerHour ≤ remaining.length then ([], 3600) else (remaining, 0)

/-! ### Schema and store (`database_manager.py`)

`trade_data` has a synthetic `id INTEGER PRIMARY KEY AUTOINCREMENT` and no
other uniqueness constraint.  `insert_trade_data` issues
`INSERT OR REPLACE` without supplying `id`, so every inserted row receives a
fresh autoincrement id and the REPLACE clause can never fire: the operation
is a pure append of freshly-identified rows.  `created_at` (a write-time
default) is not modelled; no claim depends on it.
-/

/-- The twelve explicitly inserted/selected columns of `trade_data`. -/
structure TradeRow where
  year : Int
  month : Option Int
  reporter_code : String
  reporter_name : String
  partner_code : String
  partner_name : String
  trade_flow : String
  hs_code : String
  hs_description : String
  trade_value : Option Rat
  quantity : Option Rat
  unit : String
deriving DecidableEq, Repr

/-- A persisted `trade_data` row: the synthetic autoincrement id plus the
twelve data columns. -/
structure StoredRow where
  id : Nat
  row : TradeRow
deriving DecidableEq, Repr

/-- The `trade_data` table: rows plus the autoincrement counter. -/
structure TradeTable where
  nextId : Nat
  rows : List StoredRow
deriving DecidableEq, Repr

def emptyTable : TradeTable := { nextId := 1, rows := [] }

/-- Binding one parameter tuple of the `executemany`: the record receives a
fresh autoincrement id (so `INSERT OR REPLACE` never meets a conflict) and
is appended to the table. -/
def appendRow (t : TradeTable) (r : TradeRow) : TradeTable :=
  { nextId := t.nextId + 1,
    rows := t.rows ++ [{ id := t.nextId, row := r }] }

/-- Embeds `DatabaseManager.insert_trade_data` on a batch of well-formed records:
`executemany` binds the tuples in order and the batch is committed as a
whole. -/
def insertTradeData (t : TradeTable) (batch : List TradeRow) : TradeTable :=
  batch.foldl appendRow t

/-- One `executemany` parameter tuple: `some r` is a well-formed 12-tuple,
`none` a malformed tuple on which sqlite3 raises mid-batch. -/
abbrev BatchEntry := Option TradeRow

/-- Sequential processing of the `executemany` parameter list inside the
transaction: rows are bound one at a time; the first malformed tuple raises,
aborting the statement.  Returns `none` exactly when an exception occurred. -/
def runBatch (t : TradeTable) : List BatchEntry → Option TradeTable
  | [] => some t
  | some r :: rest => runBatch (appendRow t r) rest
  | none :: _ => none

/-- Embeds `DatabaseManager.insert_trade_data` with error behaviour: the
`with self.get_connection()` block commits when `executemany` succeeds and
rolls the transaction back when it raises, and the `except` clause re-raises.
Result: the table after the call, paired with `true` iff an error was
surfaced to the caller. -/
def insertTradeDataE (t : TradeTable) (batch : List BatchEntry) :
    TradeTable × Bool :=
  match runBatch t batch with
  | some committed => (committed, false)
  | none => (t, true)

/-- A `countries` reference row (`code` is the natural primary key). -/
structure CountryRow where
  code : String
  name : String
  region : String
deriving DecidableEq, Repr

/-- An `hs_codes` reference row (`code` is the natural primary key);
`hs_section` embeds the column named `section` (a Lean keyword). -/
structure HsCodeRow where
  code : String
  description : String
  hs_section : String
deriving DecidableEq, Repr

/-- SQLite `INSERT OR REPLACE` on a table whose primary key is `key ·`:
the conflicting row (same key) is deleted and the new row inserted. -/
def upsertByKey {α : Type} (key : α → String) (tbl : List α) (r : α) : List α :=
  tbl.filter (fun x => key x != key r) ++ [r]

/-- Embeds `DatabaseManager.insert_countries`: `INSERT OR REPLACE` keyed by
`countries.code`, applied to each parameter tuple in order. -/
def insertCountries (tbl : List CountryRow) (batch : List CountryRow) :
    List CountryRow :=
  batch.foldl (upsertByKey CountryRow.code) tbl

/-- Embeds `DatabaseManager.insert_hs_codes`: `INSERT OR REPLACE` keyed by
`hs_codes.code`, applied to each parameter tuple in order. -/
def insertHsCodes (tbl : List HsCodeRow) (batch : List HsCodeRow) :
    List HsCodeRow :=
  batch.foldl (upsertByKey HsCodeRow.code) tbl

/-! ### Query layer (`get_trade_data`, `get_summary_stats`)

`get_trade_data` appends `AND <col> = ?` for each filter key that is present
and truthy, except `hs_code`, which appends `AND hs_code LIKE ?` with the
bound parameter `f"{filters['hs_code']}%"`.  SQLite `LIKE`: `%` matches any
sequence, `_` matches any single character, and plain characters compare
ASCII-case-insensitively.  The final `ORDER BY year DESC, trade_value DESC`
sorts with SQLite's `NULL < everything`, so null `trade_value` comes last
within a year group.
-/

/-- ASCII lower-casing, as SQLite's default `LIKE` applies to `A`–`Z`. -/
def lowerAscii (c : Char) : Char :=
  if 'A' ≤ c ∧ c ≤ 'Z' then Char.ofNat (c.toNat + 32) else c

/-- SQLite `LIKE` comparison of one plain pattern character. -/
def likeCharEq (c d : Char) : Bool := lowerAscii c == lowerAscii d

/-- SQLite `LIKE` pattern matching (no ESCAPE clause): first argument the
pattern, second the text.  `%` consumes any amount of text (equivalently:
the rest of the pattern matches some suffix of the text), `_` exactly one
character, and plain characters compare ASCII-case-insensitively. -/
def likeMatch : List Char → List Char → Bool
  | [], s => s.isEmpty
  | c :: ps, s =>
    if c = '%' then s.tails.any (fun suf => likeMatch ps suf)
    else
      match s with
      | [] => false
      | d :: ss =>
        if c = '_' then likeMatch ps ss
        else likeCharEq c d && likeMatch ps ss

/-- The `filters` dictionary of `get_trade_data`.  `none` embeds both an
absent key and a key bound to Python `None` (each filter clause also tests
truthiness, so the two are indistinguishable); `some 0` / `some ""` embed a
present-but-falsy binding. -/
structure Filters where
  year : Option Int := none
  reporter_code : Option String := none
  partner_code : Option String := none
  trade_flow : Option String := none
  hs_code : Option String := none
deriving DecidableEq, Repr

/-- The WHERE clause built by `get_trade_data`: each filter key contributes
a constraint only when present and truthy. -/
def rowMatches (f : Filters) (r : TradeRow) : Bool :=
  (match f.year with
   | some y => if y != 0 then r.year == y else true
   | none => true) &&
  (match f.reporter_code with
   | some s => if s != "" then r.reporter_code == s else true
   | none => true) &&
  (match f.partner_code with
   | some s => if s != "" then r.partner_code == s else true
   | none => true) &&
  (match f.trade_flow with
   | some s => if s != "" then r.trade_flow == s else true
   | none => true) &&
  (match f.hs_code with
   | some s => if s != "" then likeMatch (s.data ++ ['%']) r.hs_code.data else true
   | none => true)

/-- Reads "`a` may precede `b`" under `ORDER BY year DESC, trade_value DESC`,
with SQLite's `NULL` ordering below every value (hence last under DESC). -/
def optValGe : Option Rat → Option Rat → Bool
  | none, none => true
  | none, some _ => false
  | some _, none => true
  | some u, some v => decide (v ≤ u)

def rowLe (a b : TradeRow) : Bool :=
  decide (b.year < a.year) ||
    (decide (a.year = b.year) && optValGe a.trade_value b.trade_value)

/-- Wraps `rowLe` as a relation: the row order produced by the ORDER BY clause. -/
def rowOrder (a b : TradeRow) : Prop := rowLe a b = true

instance : DecidableRel rowOrder := fun a b =>
  inferInstanceAs (Decidable (rowLe a b = true))

/-- Embeds `DatabaseManager.get_trade_data`: filter the fact rows by the truthy
filter keys and emit the twelve selected columns in
`ORDER BY year DESC, trade_value DESC` order (the engine guarantees a
sorted permutation; the embedding realises it by insertion sort). -/
def getTradeData (t : TradeTable) (f : Filters) : List TradeRow :=
  ((t.rows.map StoredRow.row).filter (rowMatches f)).insertionSort rowOrder

structure SummaryStats where
  total_records : Nat
  year_range : String
  unique_reporters : Nat
  unique_partners : Nat
  total_trade_value : Rat
deriving DecidableEq, Repr

def foldMinInt (l : List Int) : Option Int :=
  l.foldl (fun a y => match a with | none => some y | some m => some (min m y)) none

def foldMaxInt (l : List Int) : Option Int :=
  l.foldl (fun a y => match a with | none => some y | some m => some (max m y)) none

/-- Embeds `DatabaseManager.get_summary_stats`: `COUNT(*)`, `MIN(year)`/`MAX(year)`
formatted as `f"{min_year}-{max_year}" if min_year else "No data"`
(SQL MIN/MAX of an empty table is NULL, hence falsy), distinct reporter and
partner counts, and `SUM(trade_value) WHERE trade_value IS NOT NULL` with
the Python fallback `total_value if total_value else 0` (SQL SUM of no rows
is NULL). -/
def getSummaryStats (t : TradeTable) : SummaryStats :=
  let rows := t.rows.map StoredRow.row
  let years := rows.map TradeRow.year
  let yearRange :=
    match foldMinInt years, foldMaxInt years with
    | some m, some M => if m != 0 then toString m ++ "-" ++ toString M else "No data"
    | _, _ => "No data"
  let vals := rows.filterMap TradeRow.trade_value
  let sumOpt : Option Rat :=
    if vals.isEmpty then none else some (vals.foldl (fun a v => a + v) 0)
  { total_records := rows.length,
    year_range := yearRange,
    unique_reporters := (rows.map TradeRow.reporter_code).dedup.length,
    unique_partners := (rows.map TradeRow.partner_code).dedup.length,
    total_trade_value := match sumOpt with
      | some v => if v != 0 then v else 0
      | none => 0 }

/-! ### Extractor response mapping (`extract_trade_data_free_api`)

Each record of `response['data']` is mapped to one parameter tuple inside a
`try` whose `except (ValueError, TypeError)` skips just that record.  The
only raising operations are the two `float(...)` conversions, each guarded
by a truthiness test: `float(record.get('tradeValue', 0)) if
record.get('tradeValue') else None` (and likewise `qty`).
-/

/-- One record of the JSON response, restricted to the keys the mapping
reads.  `none` (and `PyVal.pNone`) stands for an absent key, which
`dict.get` replaces by the listed default. -/
structure SrcRecord where
  period : Option Int := none
  reporterCode : Option String := none
  reporterDesc : Option String := none
  partnerCode : Option String := none
  partnerDesc : Option String := none
  flowDesc : Option String := none
  cmdCode : Option String := none
  cmdDesc : Option String := none
  tradeValue : PyVal := PyVal.pNone
  qty : PyVal := PyVal.pNone
  qtyUnitAbbr : Option String := none
deriving DecidableEq, Repr

/-- Embeds `float(v) if v else None`: the outer `none` is a raised
`ValueError`/`TypeError` (record skipped); `some none` is a stored NULL. -/
def convertValue (v : PyVal) : Option (Option Rat) :=
  if pyTruthy v then (pyFloat v).map some else some none

/-- The per-record tuple construction of `extract_trade_data_free_api`
(`reporter`, `year`, `hs` are the function arguments used as `dict.get`
defaults); `none` when the record raised and is skipped. -/
def mapRecord (reporter : String) (year : Int) (hs : String) (r : SrcRecord) :
    Option TradeRow :=
  match convertValue r.tradeValue, convertValue r.qty with
  | some tv, some q =>
      some { year := r.period.getD year,
             month := none,
             reporter_code := r.reporterCode.getD reporter,
             reporter_name := r.reporterDesc.getD "",
             partner_code := r.partnerCode.getD "",
             partner_name := r.partnerDesc.getD "",
             trade_flow := r.flowDesc.getD "Import",
             hs_code := r.cmdCode.getD hs,
             hs_description := r.cmdDesc.getD "",
             trade_value := tv,
             quantity := q,
             unit := r.qtyUnitAbbr.getD "" }
  | _, _ => none

/-- Embeds `extract_trade_data_free_api` from the point the HTTP response is in
hand: `response = none` embeds a failed request or a body without `data`
(yield 0, table untouched); otherwise the surviving records are inserted
and their count returned. -/
def extractFreeApi (db : TradeTable) (reporter : String) (year : Int)
    (hs : String) (response : Option (List SrcRecord)) : TradeTable × Nat :=
  match response with
  | none => (db, 0)
  | some data =>
    let recs := data.filterMap (mapRecord reporter year hs)
    if recs.isEmpty then (db, 0) else (insertTradeData db recs, recs.length)

/-! ### Shared sample data and helper lemmas -/

/-- A sample fact row with the given year, HS code and trade value. -/
def mkRow (y : Int) (hs : String) (v : Option Rat) : TradeRow :=
  { year := y, month := none,
    reporter_code := "USA", reporter_name := "United States of America",
    partner_code := "CHN", partner_name := "China",
    trade_flow := "Import", hs_code := hs, hs_description := "",
    trade_value := v, quantity := none, unit := "KG" }

/-- Number of stored rows whose data columns equal `r`. -/
def countMatching (t : TradeTable) (r : TradeRow) : Nat :=
  (t.rows.filter (fun s => s.row == r)).length

lemma insertTradeData_singleton (t : TradeTable) (r : TradeRow) :
    insertTradeData t [r] = appendRow t r := rfl

lemma insertTradeData_rows_length (batch : List TradeRow) (t : TradeTable) :
    (insertTradeData t batch).rows.length = t.rows.length + batch.length := by
  induction batch generalizing t with
  | nil => simp [insertTradeData]
  | cons r rest ih =>
    show (insertTradeData (appendRow t r) rest).rows.length = _
    rw [ih]
    simp [appendRow]
    omega

lemma countMatching_appendRow (t : TradeTable) (r : TradeRow) :
    countMatching (appendRow t r) r = countMatching t r + 1 := by
  simp [countMatching, appendRow, List.filter_append]

lemma upsertByKey_filter_self {α : Type} [DecidableEq α] (key : α → String)
    (tbl : List α) (r : α) :
    (upsertByKey key tbl r).filter (fun x => key x == key r) = [r] := by
  have h1 : (tbl.filter (fun x => key x != key r)).filter
      (fun x => key x == key r) = [] := by
    rw [List.filter_filter]
    have : (fun x => (key x == key r) && (key x != key r))
        = fun _ : α => false := by
      funext x
      cases h : key x == key r <;> simp [bne, h]
    rw [this, List.filter_false]
  simp [upsertByKey, List.filter_append, h1]

/-! ### Claims -/

/-- C1: the spec claims `check_rate_limit` discards every recorded timestamp
older than one hour and suspends when the remaining count reaches the
ceiling.  The code filters on `(now - t).seconds < 3600`, the mod-86400
seconds component, so a timestamp 88200 s (24 h 30 min) old is kept
(88200 % 86400 = 1800 < 3600) even though it is far older than one hour —
contradicting the code's own comment "Remove requests older than 1 hour".
The suspension half of the claim does hold: with two timestamps inside the
last hour under a ceiling of 2, the call sleeps 3600 s and clears the
window. -/
theorem claim_C1_rate_limit_eval :
    checkRateLimit 100000 [11800] 2 = ([11800], 0) ∧
    (100000 - 11800 : Int) > 3600 ∧
    checkRateLimit 10000 [6700, 8200] 2 = ([], 3600) := by decide

/-- C2: two calls of `insert_trade_data` append without natural-key
deduplication: the row count after the second call is the count after the
first plus the size of the second batch, and inserting the same record via
two separate singleton calls adds two distinct matching rows. -/
theorem claim_C2_no_natural_key_dedup (t : TradeTable) (b1 b2 : List TradeRow)
    (r : TradeRow) :
    (insertTradeData (insertTradeData t b1) b2).rows.length
      = (insertTradeData t b1).rows.length + b2.length ∧
    countMatching (insertTradeData (insertTradeData t [r]) [r]) r
      = countMatching t r + 2 := by
  refine ⟨insertTradeData_rows_length b2 _, ?_⟩
  rw [insertTradeData_singleton, insertTradeData_singleton,
    countMatching_appendRow, countMatching_appendRow]

/-- C3: `insert_countries` / `insert_hs_codes` are `INSERT OR REPLACE`
keyed by the natural primary key: writing the same code twice with
different descriptive text leaves exactly one row for that key, carrying
the fields of the latest write. -/
theorem claim_C3_reference_upsert_last_write_wins (tc : List CountryRow)
    (th : List HsCodeRow) (c : String) (n1 r1 n2 r2 d1 s1 d2 s2 : String) :
    (insertCountries (insertCountries tc [⟨c, n1, r1⟩]) [⟨c, n2, r2⟩]).filter
        (fun x => x.code == c) = [⟨c, n2, r2⟩] ∧
    (insertHsCodes (insertHsCodes th [⟨c, d1, s1⟩]) [⟨c, d2, s2⟩]).filter
        (fun x => x.code == c) = [⟨c, d2, s2⟩] := by
  constructor
  · simpa [insertCountries] using
      upsertByKey_filter_self CountryRow.code
        (insertCountries tc [⟨c, n1, r1⟩]) ⟨c, n2, r2⟩
  · simpa [insertHsCodes] using
      upsertByKey_filter_self HsCodeRow.code
        (insertHsCodes th [⟨c, d1, s1⟩]) ⟨c, d2, s2⟩

lemma runBatch_all_some (batch : List BatchEntry) (t : TradeTable)
    (h : batch.all Option.isSome = true) :
    runBatch t batch = some (insertTradeData t (batch.filterMap id)) := by
  induction batch generalizing t with
  | nil => simp [runBatch, insertTradeData]
  | cons e rest ih =>
    cases e with
    | none => simp at h
    | some r =>
      simp only [List.all_cons, Bool.and_eq_true] at h
      show runBatch (appendRow t r) rest = _
      rw [ih _ h.2]
      simp [insertTradeData, List.filterMap_cons]

lemma runBatch_has_none (batch : List BatchEntry) (t : TradeTable)
    (h : batch.all Option.isSome = false) :
    runBatch t batch = none := by
  induction batch generalizing t with
  | nil => simp at h
  | cons e rest ih =>
    cases e with
    | none => rfl
    | some r =>
      simp only [List.all_cons, Option.isSome_some, Bool.true_and] at h
      exact ih (appendRow t r) h

lemma getSummaryStats_appendNull (t : TradeTable) (r : TradeRow)
    (h : r.trade_value = none) :
    (getSummaryStats (insertTradeData t [r])).total_records
      = (getSummaryStats t).total_records + 1 ∧
    (getSummaryStats (insertTradeData t [r])).total_trade_value
      = (getSummaryStats t).total_trade_value := by
  rw [insertTradeData_singleton]
  constructor
  · simp [getSummaryStats, appendRow]
  · simp [getSummaryStats, appendRow, List.filterMap_append, h]

/-- C8: each `insert_trade_data` batch is atomic: either every record of
the batch is appended and committed in one commit with no error, or the
`executemany` raises on a malformed tuple, the transaction is rolled back
leaving the fact table exactly as before, and the error is re-raised to the
caller; no partial success exists. -/
theorem claim_C8_batch_atomicity (t : TradeTable) (batch : List BatchEntry) :
    (batch.all Option.isSome = true ∧
      insertTradeDataE t batch = (insertTradeData t (batch.filterMap id), false)) ∨
    (batch.all Option.isSome = false ∧
      insertTradeDataE t batch = (t, true)) := by
  cases h : batch.all Option.isSome
  · exact Or.inr ⟨rfl, by simp [insertTradeDataE, runBatch_has_none batch t h]⟩
  · exact Or.inl ⟨rfl, by simp [insertTradeDataE, runBatch_all_some batch t h]⟩

/-- C6: `get_summary_stats` on the empty store yields `total_records = 0`
and the `"No data"` year-range sentinel (no exception: the embedding is the
code's non-raising path), and adding a row whose `trade_value` is NULL
increments `total_records` while leaving `total_trade_value` unchanged —
null values are excluded from the sum but count toward the row count. -/
theorem claim_C6_summary_stats (t : TradeTable) (r : TradeRow)
    (h : r.trade_value = none) :
    (getSummaryStats emptyTable).total_records = 0 ∧
    (getSummaryStats emptyTable).year_range = "No data" ∧
    (getSummaryStats (insertTradeData t [r])).total_records
      = (getSummaryStats t).total_records + 1 ∧
    (getSummaryStats (insertTradeData t [r])).total_trade_value
      = (getSummaryStats t).total_trade_value :=
  ⟨rfl, rfl, (getSummaryStats_appendNull t r h).1,
    (getSummaryStats_appendNull t r h).2⟩

/-- C6 witness: the theorem applied to the empty table and a concrete
null-valued row. -/
theorem claim_C6_summary_stats_witness :
    (mkRow 2021 "01" none).trade_value = none ∧
    ((getSummaryStats emptyTable).total_records = 0 ∧
     (getSummaryStats emptyTable).year_range = "No data" ∧
     (getSummaryStats (insertTradeData emptyTable [mkRow 2021 "01" none])).total_records
       = (getSummaryStats emptyTable).total_records + 1 ∧
     (getSummaryStats (insertTradeData emptyTable [mkRow 2021 "01" none])).total_trade_value
       = (getSummaryStats emptyTable).total_trade_value) :=
  ⟨rfl, claim_C6_summary_stats emptyTable (mkRow 2021 "01" none) rfl⟩

/-- C7: a source record on which the tuple construction raises
(`mapRecord … = none`, e.g. a non-numeric trade value) is skipped
individually: the extraction of a response containing it yields exactly the
same table and count as the response without it — every other well-formed
record is still mapped and inserted, and the run is not aborted. -/
theorem claim_C7_malformed_record_skipped (db : TradeTable) (rep : String)
    (yr : Int) (hs : String) (l1 l2 : List SrcRecord) (bad : SrcRecord)
    (hbad : mapRecord rep yr hs bad = none) :
    extractFreeApi db rep yr hs (some (l1 ++ bad :: l2))
      = extractFreeApi db rep yr hs (some (l1 ++ l2)) := by
  simp [extractFreeApi, List.filterMap_append, List.filterMap_cons, hbad]

/-- A record whose trade value is a non-numeric string: `float("abc")`
raises `ValueError`. -/
def badRec : SrcRecord := { tradeValue := PyVal.pStr "abc" }

/-- A well-formed record. -/
def goodRec : SrcRecord := { period := some 2021, tradeValue := PyVal.pNum 5 }

/-- C7 witness: the theorem applied to a concrete response holding two
well-formed records around one malformed record. -/
theorem claim_C7_malformed_record_skipped_witness :
    mapRecord "USA" 2022 "TOTAL" badRec = none ∧
    extractFreeApi emptyTable "USA" 2022 "TOTAL"
        (some ([goodRec] ++ badRec :: [goodRec]))
      = extractFreeApi emptyTable "USA" 2022 "TOTAL" (some ([goodRec] ++ [goodRec])) :=
  ⟨by decide, claim_C7_malformed_record_skipped emptyTable "USA" 2022 "TOTAL"
    [goodRec] [goodRec] badRec (by decide)⟩

/-- C9: a source record whose `tradeValue` (resp. `qty`) is falsy — `0`,
missing, `None`, `""` — maps to a row with `trade_value` (resp. `quantity`)
NULL, not `0`; consequently inserting such a row leaves the aggregate
`total_trade_value` unchanged while still raising `total_records`. -/
theorem claim_C9_falsy_value_stored_null (rep : String) (yr : Int)
    (hs : String) (r : SrcRecord) (row : TradeRow) (t : TradeTable)
    (hv : pyTruthy r.tradeValue = false) (hq : pyTruthy r.qty = false)
    (hm : mapRecord rep yr hs r = some row) :
    row.trade_value = none ∧ row.quantity = none ∧
    (getSummaryStats (insertTradeData t [row])).total_trade_value
      = (getSummaryStats t).total_trade_value ∧
    (getSummaryStats (insertTradeData t [row])).total_records
      = (getSummaryStats t).total_records + 1 := by
  have hconv : convertValue r.tradeValue = some none := by
    simp [convertValue, hv]
  have hconvq : convertValue r.qty = some none := by
    simp [convertValue, hq]
  simp only [mapRecord, hconv, hconvq, Option.some.injEq] at hm
  subst hm
  exact ⟨rfl, rfl, (getSummaryStats_appendNull t _ rfl).2,
    (getSummaryStats_appendNull t _ rfl).1⟩

/-- A record carrying a genuine zero-valued trade. -/
def zeroValRec : SrcRecord := { tradeValue := PyVal.pNum 0 }

/-- The row `zeroValRec` maps to. -/
def zeroValRow : TradeRow :=
  { year := 2022, month := none, reporter_code := "USA", reporter_name := "",
    partner_code := "", partner_name := "", trade_flow := "Import",
    hs_code := "TOTAL", hs_description := "", trade_value := none,
    quantity := none, unit := "" }

/-- C9 witness: the theorem applied to a record whose trade value is
exactly `0`. -/
theorem claim_C9_falsy_value_stored_null_witness :
    pyTruthy zeroValRec.tradeValue = false ∧
    pyTruthy zeroValRec.qty = false ∧
    mapRecord "USA" 2022 "TOTAL" zeroValRec = some zeroValRow ∧
    (zeroValRow.trade_value = none ∧ zeroValRow.quantity = none ∧
     (getSummaryStats (insertTradeData emptyTable [zeroValRow])).total_trade_value
       = (getSummaryStats emptyTable).total_trade_value ∧
     (getSummaryStats (insertTradeData emptyTable [zeroValRow])).total_records
       = (getSummaryStats emptyTable).total_records + 1) :=
  ⟨by decide, by decide, by decide,
    claim_C9_falsy_value_stored_null "USA" 2022 "TOTAL" zeroValRec zeroValRow
      emptyTable (by decide) (by decide) (by decide)⟩

lemma optValGe_total (x y : Option Rat) : (optValGe x y || optValGe y x) = true := by
  cases x <;> cases y <;>
    simp only [optValGe, Bool.or_true, Bool.true_or, Bool.or_self,
      Bool.or_eq_true, decide_eq_true_eq]
  exact le_total _ _

lemma optValGe_trans : ∀ (x y z : Option Rat), optValGe x y = true →
    optValGe y z = true → optValGe x z = true
  | none, none, none, _, _ => rfl
  | none, none, some _, _, h2 => h2
  | none, some _, _, h1, _ => by simp [optValGe] at h1
  | some _, _, none, _, _ => rfl
  | some _, none, some _, _, h2 => by simp [optValGe] at h2
  | some a, some b, some c, h1, h2 => by
      simp only [optValGe, decide_eq_true_eq] at h1 h2 ⊢
      exact le_trans h2 h1

lemma rowLe_total (a b : TradeRow) : (rowLe a b || rowLe b a) = true := by
  unfold rowLe
  rcases lt_trichotomy a.year b.year with h | h | h
  · simp [h]
  · simp [h, lt_irrefl, ← Bool.or_eq_true]
    exact optValGe_total _ _
  · simp [h]

lemma rowLe_trans (a b c : TradeRow) (h1 : rowLe a b = true)
    (h2 : rowLe b c = true) : rowLe a c = true := by
  simp only [rowLe, Bool.or_eq_true, Bool.and_eq_true, decide_eq_true_eq]
    at h1 h2 ⊢
  rcases h1 with h1 | ⟨e1, g1⟩ <;> rcases h2 with h2 | ⟨e2, g2⟩
  · exact Or.inl (by omega)
  · exact Or.inl (by omega)
  · exact Or.inl (by omega)
  · exact Or.inr ⟨by omega, optValGe_trans _ _ _ g1 g2⟩

instance : IsTotal TradeRow rowOrder :=
  ⟨fun a b => by
    have h := rowLe_total a b
    rcases Bool.or_eq_true_iff.mp h with h | h
    · exact Or.inl h
    · exact Or.inr h⟩

instance : IsTrans TradeRow rowOrder := ⟨rowLe_trans⟩

lemma rowMatches_default : rowMatches {} = fun _ : TradeRow => true := by
  funext r
  simp [rowMatches]

lemma rowMatches_year2022 :
    rowMatches { year := some 2022 } = fun r : TradeRow => r.year == 2022 := by
  funext r
  simp [rowMatches]

/-- C5: `get_trade_data({year: 2022})` returns exactly the fact rows with
year 2022 (a permutation of the year-2022 rows, hence no others), sorted by
the ORDER BY order `rowOrder` — year descending, then trade value
descending with NULL trade values ranked below every value and therefore
last; `get_trade_data({})` returns all rows in the same order. -/
theorem claim_C5_year_filter_and_ordering (t : TradeTable) :
    List.Perm (getTradeData t { year := some 2022 })
        ((t.rows.map StoredRow.row).filter (fun r => r.year == 2022)) ∧
    List.Sorted rowOrder (getTradeData t { year := some 2022 }) ∧
    List.Perm (getTradeData t {}) (t.rows.map StoredRow.row) ∧
    List.Sorted rowOrder (getTradeData t {}) := by
  refine ⟨?_, ?_, ?_, ?_⟩
  · unfold getTradeData
    rw [rowMatches_year2022]
    exact List.perm_insertionSort rowOrder _
  · exact List.sorted_insertionSort rowOrder _
  · unfold getTradeData
    rw [rowMatches_default, List.filter_true]
    exact List.perm_insertionSort rowOrder _
  · exact List.sorted_insertionSort rowOrder _

/-- A `filters` dictionary in which every recognised key is present but
bound to a falsy value. -/
def falsyFilters : Filters :=
  { year := some 0, reporter_code := some "", partner_code := some "",
    trade_flow := some "", hs_code := some "" }

/-- C10: a filter key bound to a falsy value (`0` for year, `""` for the
string filters) contributes no constraint, exactly like an omitted key:
the result equals the unfiltered query and is a permutation of all rows. -/
theorem claim_C10_falsy_filter_ignored (t : TradeTable) :
    getTradeData t { year := some 0 } = getTradeData t {} ∧
    getTradeData t { hs_code := some "" } = getTradeData t {} ∧
    getTradeData t falsyFilters = getTradeData t {} ∧
    List.Perm (getTradeData t { year := some 0 }) (t.rows.map StoredRow.row) := by
  have hy : rowMatches { year := some 0 } = rowMatches ({} : Filters) := by
    funext r
    simp [rowMatches]
  have hh : rowMatches { hs_code := some "" } = rowMatches ({} : Filters) := by
    funext r
    simp [rowMatches]
  have hall : rowMatches falsyFilters = rowMatches ({} : Filters) := by
    funext r
    simp [rowMatches, falsyFilters]
  refine ⟨?_, ?_, ?_, ?_⟩
  · unfold getTradeData
    rw [hy]
  · unfold getTradeData
    rw [hh]
  · unfold getTradeData
    rw [hall]
  · unfold getTradeData
    rw [hy, rowMatches_default, List.filter_true]
    exact List.perm_insertionSort rowOrder _

lemma tails_any_isEmpty (s : List Char) :
    (s.tails.any (fun l => l.isEmpty)) = true := by
  induction s with
  | nil => rfl
  | cons a t ih =>
    rw [List.tails_cons]
    simp only [List.any_cons, ih, Bool.or_true]

lemma likeMatch_percent_nil (s : List Char) : likeMatch ['%'] s = true := by
  show (if ('%' : Char) = '%' then s.tails.any (fun suf => likeMatch [] suf)
    else _) = true
  rw [if_pos rfl]
  have : (fun suf : List Char => likeMatch [] suf) = fun l : List Char => l.isEmpty := by
    funext l
    rfl
  rw [this]
  exact tails_any_isEmpty s

/-- Spec-side notion "the text begins with the filter string", compared the way SQLite
`LIKE` compares plain characters (ASCII-case-insensitively). -/
def beginsWithCI (f s : List Char) : Bool :=
  (f.map lowerAscii).isPrefixOf (s.map lowerAscii)

/-- On a pattern free of `LIKE` wildcards, matching `pattern ++ "%"` is
exactly the case-insensitive begins-with test. -/
lemma likeMatch_wildcard_free (p : List Char) :
    (∀ c ∈ p, c ≠ '%' ∧ c ≠ '_') → ∀ s : List Char,
      likeMatch (p ++ ['%']) s = beginsWithCI p s := by
  induction p with
  | nil =>
    intro _ s
    rw [List.nil_append, likeMatch_percent_nil]
    cases s <;> rfl
  | cons c ps ih =>
    intro hf s
    have hc := hf c (List.mem_cons_self c ps)
    have hps : ∀ x ∈ ps, x ≠ '%' ∧ x ≠ '_' :=
      fun x hx => hf x (List.mem_cons_of_mem c hx)
    cases s with
    | nil =>
      show (if c = '%' then ([] : List Char).tails.any _ else false) = _
      rw [if_neg hc.1]
      rfl
    | cons d ss =>
      show (if c = '%' then _ else if c = '_' then likeMatch (ps ++ ['%']) ss
        else likeCharEq c d && likeMatch (ps ++ ['%']) ss) = _
      rw [if_neg hc.1, if_neg hc.2, ih hps ss]
      rfl

/-- The `hs_code` clause of `get_trade_data` with a truthy filter value. -/
lemma rowMatches_hs_code (f : String) (hne : f ≠ "") (r : TradeRow) :
    rowMatches { hs_code := some f } r
      = likeMatch (f.data ++ ['%']) r.hs_code.data := by
  have hb : (f != "") = true := bne_iff_ne.mpr hne
  simp [rowMatches, hb]

/-- C4, amended: the claim as stated fails for filter strings containing a
`LIKE` wildcard (see the counterexample); for every filter string free of
the `LIKE` wildcards `%` and `_`, a row is returned by
`get_trade_data({hs_code: f})` iff it is a fact row whose `hs_code` begins
with `f`, compared ASCII-case-insensitively as SQLite `LIKE` compares
characters (on the digit-only codes of the spec's example this is exact
prefix matching). -/
theorem claim_C4_hs_code_filter_amended (t : TradeTable) (f : String)
    (r : TradeRow) (hf : ∀ c ∈ f.data, c ≠ '%' ∧ c ≠ '_') :
    r ∈ getTradeData t { hs_code := some f } ↔
      r ∈ t.rows.map StoredRow.row ∧ beginsWithCI f.data r.hs_code.data = true := by
  unfold getTradeData
  rw [(List.perm_insertionSort rowOrder _).mem_iff, List.mem_filter]
  refine and_congr_right (fun _ => ?_)
  by_cases h0 : f = ""
  · subst h0
    simp [rowMatches, beginsWithCI, List.isPrefixOf]
  · rw [rowMatches_hs_code f h0, likeMatch_wildcard_free f.data hf]

/-- A fact table holding one row with `hs_code = "84"`. -/
def hsTable84 : TradeTable := insertTradeData emptyTable [mkRow 2022 "84" none]

/-- C4 counterexample: with the wildcard-bearing filter `"8_"`,
`get_trade_data` returns the row whose `hs_code` is `"84"`, yet `"84"`
does not begin with the filter string `"8_"` — so "a row is returned iff
its hs_code begins with the filter string" is false as stated. -/
theorem claim_C4_hs_code_filter_counterexample :
    (getTradeData hsTable84 { hs_code := some "8_" }).map TradeRow.hs_code
      = ["84"] ∧
    ("8_".data).isPrefixOf ("84".data) = false := by
  constructor
  · rfl
  · decide

/-- A fact table holding rows with HS codes `"8471"`, `"84"` and `"185"`
(the spec's prefix-matching example universe). -/
def hsSampleTable : TradeTable :=
  insertTradeData emptyTable
    [mkRow 2022 "8471" none, mkRow 2022 "84" none, mkRow 2021 "185" none]

/-- C4 witness: the amended theorem applied to the filter `"84"` and the
row with `hs_code = "8471"` of a concrete table. -/
theorem claim_C4_hs_code_filter_amended_witness :
    (∀ c ∈ "84".data, c ≠ '%' ∧ c ≠ '_') ∧
    (mkRow 2022 "8471" none ∈ getTradeData hsSampleTable { hs_code := some "84" } ↔
      mkRow 2022 "8471" none ∈ hsSampleTable.rows.map StoredRow.row ∧
        beginsWithCI "84".data (mkRow 2022 "8471" none).hs_code.data = true) :=
  ⟨by decide, claim_C4_hs_code_filter_amended hsSampleTable "84"
    (mkRow 2022 "8471" none) (by decide)⟩

end TradeDash
